import Mathlib

/-!
Shallow embedding of `videoconvert.py`, a batch MP4 converter / thumbnail
extractor driving ffmpeg/ffprobe through subprocess invocations.

Modelling conventions:
* Python `int` is `Int`; Python `float` values produced by the program
  (scale factors, duration fractions, timestamps) are modelled as exact
  rationals `ℚ` (every value the program computes here is a small decimal
  for which the float and the rational agree).
* A resolved absolute POSIX path is a list of its components.
* The filesystem, the PATH lookups and the behaviour of the external
  subprocesses are an explicit environment record.
* The observable behaviour of a run is a trace of events: stdout prints,
  stderr prints, directory creations, and subprocess invocations.
-/

namespace VideoConvert

/-! ### Decimal rendering of Python integers (`str(i)`, f-string interpolation) -/

/-- The ASCII digit character for a digit value `d < 10`. -/
def digitChar (d : Nat) : Char := Char.ofNat (48 + d)

/-- Decimal digit characters of `n`, most significant first (fuel-based so that
it computes by structural recursion; `fuel ≥ n` suffices). Empty for `n = 0`. -/
def natReprAux : Nat → Nat → List Char
  | 0, _ => []
  | fuel + 1, n => if n = 0 then [] else natReprAux fuel (n / 10) ++ [digitChar (n % 10)]

/-- Decimal rendering of a natural number, as Python `str` renders a nonnegative int. -/
def natRepr (n : Nat) : String := if n = 0 then "0" else String.mk (natReprAux n n)

/-- Decimal rendering of a Python integer. -/
def intRepr (i : Int) : String :=
  if i < 0 then "-" ++ natRepr i.natAbs else natRepr i.toNat

/-- Python's `sep.join(xs)` for a list of strings. -/
def joinWith (sep : String) : List String → String
  | [] => ""
  | x :: xs =>
    match xs with
    | [] => x
    | _ :: _ => x ++ sep ++ joinWith sep xs

/-- Python's `" ".join(argv)`, the text printed for a command in dry-run mode. -/
def joinSp (argv : List String) : String := joinWith " " argv

/-- Character-level string prefix test (used only on the specification side to
recognise printed command lines). -/
def strStartsWith (p s : String) : Bool := p.data.isPrefixOf s.data

/-- Python's `str.strip()` (whitespace trimmed from both ends). -/
def pyStrip (s : String) : String :=
  String.mk (((s.data.dropWhile Char.isWhitespace).reverse.dropWhile Char.isWhitespace).reverse)

/-- Python's `str.lower()` (the program only lowercases ASCII extensions). -/
def lowerStr (s : String) : String := String.mk (s.data.map Char.toLower)

/-! ### Rendering of the Python floats interpolated into strings -/

/-- Number of decimal places needed to write `q` exactly, fuel-based
(`0` when the fuel runs out; the program only ever renders decimal rationals). -/
def decExpAux : Nat → ℚ → Nat
  | 0, _ => 0
  | fuel + 1, q => if q.den = 1 then 0 else decExpAux fuel (q * 10) + 1

/-- Digits of the fractional part `n`, left-padded with zeros to `width` digits. -/
def fracDigits (n : Nat) (width : Nat) : String :=
  let s := natRepr n
  String.mk (List.replicate (width - s.length) '0') ++ s

/-- Python `repr` of a float holding the decimal rational `q`: the shortest
decimal form (with at least one fractional digit), e.g. `0.5`, `0.07`, `3.0`.
For the scale factors `(100-p)/100` this coincides with CPython's output. -/
def pyFloatRepr (q : ℚ) : String :=
  let sign := if q < 0 then "-" else ""
  let a := |q|
  let e := decExpAux 4000 a
  let scaled : Nat := (a * (10 : ℚ) ^ e).num.toNat
  if e = 0 then sign ++ natRepr scaled ++ ".0"
  else sign ++ natRepr (scaled / 10 ^ e) ++ "." ++ fracDigits (scaled % 10 ^ e) e

/-- Python `f"{q:.prec f}"`: fixed-point rendering with `prec` fractional digits.
Rounding models the correctly-rounded decimal formatting of the float value. -/
def formatFixed (prec : Nat) (q : ℚ) : String :=
  let m : Int := round (q * (10 : ℚ) ^ prec)
  let sign := if m < 0 then "-" else ""
  let n := m.natAbs
  if prec = 0 then sign ++ natRepr n
  else sign ++ natRepr (n / 10 ^ prec) ++ "." ++ fracDigits (n % 10 ^ prec) prec

/-! ### Paths (`pathlib.Path`, resolved absolute POSIX paths) -/

/-- A POSIX path as the list of its components below the root.
`⟨["a", "b.mp4"]⟩` stands for `/a/b.mp4`. -/
structure PyPath where
  components : List String
deriving DecidableEq, Repr

/-- `str(path)` for an absolute path. -/
def PyPath.render (p : PyPath) : String := "/" ++ joinWith "/" p.components

/-- `path.name`: the final component (empty for the root). -/
def PyPath.name (p : PyPath) : String := (p.components.getLast?).getD ""

/-- Index of the last `'.'` in a list of characters, if any. -/
def lastDotIdx (cs : List Char) : Option Nat :=
  (cs.reverse.findIdx? (· = '.')).map (fun j => cs.length - 1 - j)

/-- `path.suffix` as in `pathlib`: the extension from the last dot, but empty
when the dot is the first or the last character of the name. -/
def PyPath.suffix (p : PyPath) : String :=
  let nm := p.name.data
  match lastDotIdx nm with
  | some i => if 0 < i ∧ i < nm.length - 1 then String.mk (nm.drop i) else ""
  | none => ""

/-- `path.stem` as in `pathlib`: the name with `path.suffix` removed. -/
def PyPath.stem (p : PyPath) : String :=
  let nm := p.name.data
  match lastDotIdx nm with
  | some i => if 0 < i ∧ i < nm.length - 1 then String.mk (nm.take i) else String.mk nm
  | none => String.mk nm

/-- `parent / name`: append one component. -/
def PyPath.child (p : PyPath) (c : String) : PyPath := ⟨p.components ++ [c]⟩

/-- `base / rel` for a relative component list. -/
def PyPath.joinRel (p : PyPath) (rel : List String) : PyPath := ⟨p.components ++ rel⟩

/-! ### The filesystem and environment -/

/-- The observable filesystem: which paths exist (as returned by globbing),
which of them are regular files, which are directories, and symlink-free
resolution (`Path.resolve`). -/
structure Filesystem where
  entries : List PyPath
  isFile : PyPath → Bool
  isDir : PyPath → Bool
  resolve : PyPath → PyPath

/-- What a finished subprocess handed back on stdout, abstracted to the three
cases `ffprobe_duration_seconds` distinguishes: blank (empty after `strip()`),
the text of a float, or text `float()` rejects. -/
inductive ProcOut
  | blank
  | floatVal (q : ℚ)
  | nonFloat
deriving DecidableEq, Repr

/-- Result of one `subprocess.run(...)` with captured output. -/
structure ProcResult where
  returncode : Int
  stdout : ProcOut
  stderr : String
deriving DecidableEq, Repr

/-- The execution environment of one run: PATH lookups (`shutil.which`), the
filesystem, and the outcome of each external command. -/
structure Env where
  whichFfmpeg : Bool
  whichFfprobe : Bool
  fs : Filesystem
  exec : List String → ProcResult

/-! ### Parsed command-line arguments (`argparse` namespace) -/

/-- The raw options of one invocation, after `argparse` parsing. -/
structure Args where
  input_dir : PyPath
  output_dir : Option PyPath
  smaller : Int
  recursive : Bool
  suffix : String
  crf : Int
  preset : String
  audio_bitrate : String
  overwrite : Bool
  dry_run : Bool
  thumbnails : Bool
  thumbnails_only : Bool
  thumbnail_count : Int
deriving Repr

/-! ### Pure helpers from the source -/

/-- `is_relative_to(path, base)`: `path.relative_to(base)` succeeds exactly when
the components of `base` are a prefix of the components of `path`. -/
def is_relative_to (path base : PyPath) : Bool :=
  base.components.isPrefixOf path.components

/-- `input_dir.glob("*")` / `input_dir.rglob("*")`: the direct children,
respectively all strict descendants, of `input_dir` among the filesystem
entries (pathlib's `*` also matches dot-files). -/
def globEntries (fs : Filesystem) (input_dir : PyPath) (recursive : Bool) : List PyPath :=
  fs.entries.filter (fun p =>
    input_dir.components.isPrefixOf p.components &&
      (if recursive then input_dir.components.length < p.components.length
       else p.components.length = input_dir.components.length + 1))

/-- Path ordering used by `sorted` on `pathlib.Path`: lexicographic on the
tuple of components. -/
def pathLe (a b : PyPath) : Prop := a.components ≤ b.components

instance : DecidableRel pathLe := fun a b =>
  inferInstanceAs (Decidable (a.components ≤ b.components))

/-- `find_mp4_files`: glob the input directory, keep regular files with a
case-insensitive `.mp4` extension that do not resolve into the output
directory, and return them sorted. -/
def find_mp4_files (fs : Filesystem) (input_dir output_dir : PyPath) (recursive : Bool) :
    List PyPath :=
  let files := (globEntries fs input_dir recursive).filter (fun candidate =>
    fs.isFile candidate &&
      (lowerStr candidate.suffix = ".mp4" : Bool) &&
      !(is_relative_to (fs.resolve candidate) (fs.resolve output_dir)))
  List.insertionSort pathLe files

/-- `ffmpeg_command`: the argument vector for one conversion. -/
def ffmpeg_command (source destination : PyPath) (scale_factor : ℚ) (crf : Int)
    (preset audio_bitrate : String) (overwrite : Bool) : List String :=
  let scale_expr :=
    "scale=trunc(iw*" ++ pyFloatRepr scale_factor ++ "/2)*2:" ++
      "trunc(ih*" ++ pyFloatRepr scale_factor ++ "/2)*2"
  ["ffmpeg", "-hide_banner", "-loglevel", "error",
   if overwrite then "-y" else "-n",
   "-i", source.render,
   "-vf", scale_expr,
   "-c:v", "libx264",
   "-preset", preset,
   "-crf", intRepr crf,
   "-c:a", "aac",
   "-b:a", audio_bitrate,
   "-movflags", "+faststart",
   destination.render]

/-- The fixed `ffprobe` argument vector built inside `ffprobe_duration_seconds`. -/
def ffprobe_cmd (source : PyPath) : List String :=
  ["ffprobe", "-v", "error",
   "-show_entries", "format=duration",
   "-of", "default=noprint_wrappers=1:nokey=1",
   source.render]

/-- `thumbnail_command`: the argument vector for one thumbnail extraction. -/
def thumbnail_command (source destination : PyPath) (timestamp_seconds : ℚ)
    (overwrite : Bool) : List String :=
  ["ffmpeg", "-hide_banner", "-loglevel", "error",
   if overwrite then "-y" else "-n",
   "-ss", formatFixed 3 timestamp_seconds,
   "-i", source.render,
   "-frames:v", "1",
   "-q:v", "2",
   destination.render]

/-- `build_thumbnail_points(count)`: the pairs `(index, index/(count+1))` for
`index` in `1..count`, evenly spaced and avoiding the exact start and end. -/
def build_thumbnail_points (count : Int) : List (Int × ℚ) :=
  (List.range count.toNat).map
    (fun (i : Nat) => ((i : Int) + 1, ((i : ℚ) + 1) / ((count : ℚ) + 1)))

/-- Python `f"{i:02d}"`: decimal rendering zero-padded to a minimum of two
characters (wider values are kept in full). -/
def pad2 (i : Int) : String :=
  let s := intRepr i
  if s.length < 2 then "0" ++ s else s

/-- The thumbnail filename `<stem>_thumb_<index:02d>.jpg` built in the per-file
loop of `main` (line 342). -/
def thumbFileName (stem : String) (i : Int) : String :=
  stem ++ "_thumb_" ++ pad2 i ++ ".jpg"

/-! ### The run driver (`main`) as a trace-producing function -/

/-- One observable step of the run: a line printed to stdout, a line printed to
stderr, an idempotent directory creation, or a started subprocess. -/
inductive Event
  | out (s : String)
  | err (s : String)
  | mkdirp (p : PyPath)
  | run (argv : List String)
deriving DecidableEq, Repr

/-- The distinct configuration/validation failures of `main`, in source order. -/
inductive ConfigError
  | ffmpegMissing
  | ffprobeMissing
  | badThumbnailCount
  | badInputDir (input_dir : PyPath)
  | smallerOutOfRange
  | nonPositiveScale
deriving DecidableEq, Repr

/-- The validated settings `main` computes before any file work. -/
structure RunConfig where
  do_thumbnails : Bool
  do_video_conversion : Bool
  input_dir : PyPath
  output_dir : PyPath
  scale_factor : ℚ
deriving DecidableEq, Repr

/-- Outcome of the validation prologue of `main` (lines 232-267). -/
inductive Resolved
  | fail (e : ConfigError)
  | ok (cfg : RunConfig)
deriving DecidableEq, Repr

/-- The validation prologue of `main`: tool lookups, thumbnail count check,
input directory check, output directory default, and the --smaller range check
(the latter only when video conversion is requested). -/
def resolveConfig (env : Env) (args : Args) : Resolved :=
  let do_thumbnails := args.thumbnails || args.thumbnails_only
  let do_video_conversion := !args.thumbnails_only
  if !env.whichFfmpeg then .fail .ffmpegMissing
  else if do_thumbnails && !env.whichFfprobe then .fail .ffprobeMissing
  else if do_thumbnails && args.thumbnail_count < 1 then .fail .badThumbnailCount
  else
    let input_dir := env.fs.resolve args.input_dir
    if !(env.fs.isDir input_dir) then .fail (.badInputDir input_dir)
    else
      let output_dir :=
        match args.output_dir with
        | some od => env.fs.resolve od
        | none => env.fs.resolve (input_dir.child "converted")
      let mkCfg : ℚ → RunConfig := fun scale_factor =>
        { do_thumbnails := do_thumbnails
          do_video_conversion := do_video_conversion
          input_dir := input_dir
          output_dir := output_dir
          scale_factor := scale_factor }
      if do_video_conversion then
        if args.smaller ≤ 0 ∨ 100 ≤ args.smaller then .fail .smallerOutOfRange
        else
          let scale_factor : ℚ := ((100 : ℚ) - (args.smaller : ℚ)) / 100
          if scale_factor ≤ 0 then .fail .nonPositiveScale
          else .ok (mkCfg scale_factor)
      else .ok (mkCfg 0)

/-- The stderr lines `main` prints for each configuration error. -/
def configErrorEvents : ConfigError → List Event
  | .ffmpegMissing =>
      [.err "Error: ffmpeg is not installed or not in PATH.",
       .err "Install on macOS with: brew install ffmpeg"]
  | .ffprobeMissing =>
      [.err "Error: ffprobe is not installed or not in PATH.",
       .err "Install on macOS with: brew install ffmpeg"]
  | .badThumbnailCount => [.err "Error: --thumbnail-count must be at least 1."]
  | .badInputDir input_dir =>
      [.err ("Error: input directory does not exist: " ++ input_dir.render)]
  | .smallerOutOfRange => [.err "Error: --smaller must be between 1 and 99."]
  | .nonPositiveScale => [.err "Error: resulting scale factor must be > 0."]

/-- `ffprobe_duration_seconds`: start the probe subprocess and parse its
stdout; `none` on non-zero exit, blank output, or non-numeric output. -/
def ffprobe_duration_seconds (env : Env) (source : PyPath) : List Event × Option ℚ :=
  let cmd := ffprobe_cmd source
  let result := env.exec cmd
  let value : Option ℚ :=
    if result.returncode ≠ 0 then none
    else
      match result.stdout with
      | .blank => none
      | .nonFloat => none
      | .floatVal q => some q
  ([.run cmd], value)

/-- The stderr lines printed after a failed external command: the failure
notice and, when non-blank, the captured stderr text. -/
def failureNoise (label : String) (result : ProcResult) : List Event :=
  [.err label] ++
    (if pyStrip result.stderr ≠ "" then [.err ("  " ++ pyStrip result.stderr)] else [])

/-- The conversion block of the per-file loop body (lines 297-326): create the
mirrored directory, announce and build the command, then print it (dry run) or
execute it, counting a failure on non-zero exit. Returns the events and the
conversion-failure increment. -/
def processConversion (env : Env) (args : Args) (cfg : RunConfig) (rel_parent : List String)
    (source : PyPath) : List Event × Nat :=
  let target_parent := cfg.output_dir.joinRel rel_parent
  let destination := target_parent.child (source.stem ++ args.suffix ++ source.suffix)
  let cmd := ffmpeg_command source destination cfg.scale_factor args.crf args.preset
    args.audio_bitrate args.overwrite
  let ev0 := [Event.mkdirp target_parent, Event.out ("  convert -> " ++ destination.render)]
  if args.dry_run then (ev0 ++ [Event.out ("  " ++ joinSp cmd)], 0)
  else
    let result := env.exec cmd
    if result.returncode ≠ 0 then
      (ev0 ++ [Event.run cmd] ++
        failureNoise ("  convert failed (" ++ intRepr result.returncode ++ ")") result, 1)
    else (ev0 ++ [Event.run cmd], 0)

/-- One iteration of the inner thumbnail loop (lines 339-371): announce and
build the command for this point, then print it (dry run) or execute it,
counting a failure on non-zero exit. -/
def processThumbPoint (env : Env) (args : Args) (source thumb_parent : PyPath)
    (duration : ℚ) (point : Int × ℚ) : List Event × Nat :=
  let thumb_index := point.1
  let fraction := point.2
  let timestamp := duration * fraction
  let thumb_pct := fraction * 100
  let thumb_path := thumb_parent.child (thumbFileName source.stem thumb_index)
  let cmd := thumbnail_command source thumb_path timestamp args.overwrite
  let ev0 := [Event.out ("  thumb " ++ intRepr thumb_index ++ "/" ++
    intRepr args.thumbnail_count ++ " (" ++ formatFixed 1 thumb_pct ++ "%) -> " ++
    thumb_path.render)]
  if args.dry_run then (ev0 ++ [Event.out ("  " ++ joinSp cmd)], 0)
  else
    let result := env.exec cmd
    if result.returncode ≠ 0 then
      (ev0 ++ [Event.run cmd] ++
        failureNoise ("  thumbnail " ++ intRepr thumb_index ++ " failed (" ++
          intRepr result.returncode ++ ")") result, 1)
    else (ev0 ++ [Event.run cmd], 0)

/-- The thumbnail block of the per-file loop body (lines 328-371): probe the
duration; on an unavailable or non-positive duration count one thumbnail
failure and skip the file, otherwise create the mirrored thumbnails directory
and process every thumbnail point. Returns the events and the
thumbnail-failure increment. -/
def processThumbnails (env : Env) (args : Args) (cfg : RunConfig) (rel_parent : List String)
    (source : PyPath) : List Event × Nat :=
  let probed := ffprobe_duration_seconds env source
  let fail := (probed.1 ++ [Event.err "  thumbnail failed (could not read duration)"], 1)
  match probed.2 with
  | none => fail
  | some duration =>
    if duration ≤ 0 then fail
    else
      let thumb_parent := (cfg.output_dir.child "thumbnails").joinRel rel_parent
      let thumbnail_points := build_thumbnail_points args.thumbnail_count
      let results := thumbnail_points.map
        (processThumbPoint env args source thumb_parent duration)
      (probed.1 ++ [Event.mkdirp thumb_parent] ++ (results.map Prod.fst).flatten,
        (results.map Prod.snd).sum)

/-- The per-file loop body of `main` (lines 293-371), for the `index`-th of
`total` sources. Returns the events, the conversion-failure increment and the
thumbnail-failure increment. -/
def processFile (env : Env) (args : Args) (cfg : RunConfig) (total : Nat)
    (index : Nat) (source : PyPath) : List Event × Nat × Nat :=
  let rel_parent := (source.components.drop cfg.input_dir.components.length).dropLast
  let header := [Event.out ("[" ++ natRepr index ++ "/" ++ natRepr total ++ "] " ++ source.name)]
  let conv :=
    if cfg.do_video_conversion then processConversion env args cfg rel_parent source
    else ([], 0)
  let thumbs :=
    if cfg.do_thumbnails then processThumbnails env args cfg rel_parent source
    else ([], 0)
  (header ++ conv.1 ++ thumbs.1, conv.2, thumbs.2)

/-- The `Found N MP4 file(s). Running: ...` banner (lines 281-291). -/
def foundBanner (args : Args) (cfg : RunConfig) (total : Nat) : String :=
  let mode_parts :=
    (if cfg.do_video_conversion then
      ["video conversion at scale factor " ++ formatFixed 2 cfg.scale_factor ++
        " (" ++ intRepr args.smaller ++ "% smaller)"]
     else []) ++
    (if cfg.do_thumbnails then
      [intRepr args.thumbnail_count ++ " evenly spaced thumbnails per video"]
     else [])
  "Found " ++ natRepr total ++ " MP4 file(s). Running: " ++ joinWith ", " mode_parts ++ "."

/-- The result of one whole run: the exit code, the event trace, and the two
failure counters `main` accumulates. -/
structure RunOutcome where
  exitCode : Int
  events : List Event
  conversion_failures : Nat
  thumbnail_failures : Nat
deriving DecidableEq, Repr

/-- `main`: validate the configuration, discover the sources, create the output
directories, process every file in order, and report `0` (clean or nothing to
do), `1` (some operation failed) or `2` (configuration error). -/
def main (env : Env) (args : Args) : RunOutcome :=
  match resolveConfig env args with
  | .fail e => { exitCode := 2, events := configErrorEvents e,
                 conversion_failures := 0, thumbnail_failures := 0 }
  | .ok cfg =>
    let sources := find_mp4_files env.fs cfg.input_dir cfg.output_dir args.recursive
    if sources.isEmpty then
      { exitCode := 0, events := [.out "No MP4 files found."],
        conversion_failures := 0, thumbnail_failures := 0 }
    else
      let total := sources.length
      let prologue :=
        [Event.mkdirp cfg.output_dir] ++
        (if cfg.do_thumbnails then [Event.mkdirp (cfg.output_dir.child "thumbnails")] else []) ++
        [Event.out (foundBanner args cfg total)]
      let perFile := (List.enumFrom 1 sources).map
        (fun iv => processFile env args cfg total iv.1 iv.2)
      let conversion_failures := (perFile.map (fun r => r.2.1)).sum
      let thumbnail_failures := (perFile.map (fun r => r.2.2)).sum
      let epilogue :=
        [Event.out ("Completed. Conversion failures: " ++ natRepr conversion_failures ++
          ", Thumbnail failures: " ++ natRepr thumbnail_failures)]
      { exitCode := if conversion_failures + thumbnail_failures ≠ 0 then 1 else 0,
        events := prologue ++ (perFile.map Prod.fst).flatten ++ epilogue,
        conversion_failures := conversion_failures,
        thumbnail_failures := thumbnail_failures }

/-! ### Specification-side observations on traces -/

/-- The argument vectors of all subprocesses started in a trace. -/
def runArgvs (events : List Event) : List (List String) :=
  events.filterMap (fun e => match e with | .run c => some c | _ => none)

/-- The argument vectors of the encoder (`ffmpeg`) subprocesses started in a
trace. -/
def ffmpegRunArgvs (events : List Event) : List (List String) :=
  events.filterMap (fun e =>
    match e with
    | .run c => if c.head? = some "ffmpeg" then some c else none
    | _ => none)

/-- Recognises the stdout lines that print a command in dry-run mode: they are
the only stdout lines of `main` that start with two spaces and `ffmpeg`. -/
def isCmdPrint (s : String) : Bool := s.data.take 8 = "  ffmpeg".data

/-- The printed command texts of a trace, in order. -/
def cmdPrints (events : List Event) : List String :=
  events.filterMap (fun e =>
    match e with
    | .out s => if isCmdPrint s then some s else none
    | _ => none)

/-- Specification-side: the encoder argument vectors one file gives rise to
(the conversion command if conversion is requested, then one thumbnail command
per thumbnail point when thumbnails are requested and the probed duration is
positive). These are the commands `main` executes for the file without
dry-run, and prints for the file with dry-run. -/
def plannedFileCommands (env : Env) (args : Args) (cfg : RunConfig)
    (rel_parent : List String) (source : PyPath) : List (List String) :=
  (if cfg.do_video_conversion then
    [ffmpeg_command source
      ((cfg.output_dir.joinRel rel_parent).child (source.stem ++ args.suffix ++ source.suffix))
      cfg.scale_factor args.crf args.preset args.audio_bitrate args.overwrite]
   else []) ++
  (if cfg.do_thumbnails then
    match (ffprobe_duration_seconds env source).2 with
    | none => []
    | some duration =>
      if duration ≤ 0 then []
      else
        (build_thumbnail_points args.thumbnail_count).map (fun point =>
          thumbnail_command source
            (((cfg.output_dir.child "thumbnails").joinRel rel_parent).child
              (thumbFileName source.stem point.1))
            (duration * point.2) args.overwrite)
   else [])

/-- The relative parent directory `source.relative_to(input_dir).parent`
computed at the top of the per-file loop. -/
def relParent (cfg : RunConfig) (source : PyPath) : List String :=
  (source.components.drop cfg.input_dir.components.length).dropLast

/-- Specification-side: the encoder argument vectors of the whole run, over
the discovered sources in order. -/
def plannedCommands (env : Env) (args : Args) (cfg : RunConfig)
    (sources : List PyPath) : List (List String) :=
  (sources.map (fun source => plannedFileCommands env args cfg (relParent cfg source) source)).flatten

/-! ### C3: the thumbnail points -/

/-- C3: for every thumbnail count `n ≥ 1`, `build_thumbnail_points n` returns
exactly `n` (index, fraction) pairs, the indices being `1..n` in increasing
order, each fraction equal to `index/(n+1)`, and the fractions strictly
increasing and strictly inside `(0,1)`. -/
theorem build_thumbnail_points_spec (n : Int) (hn : 1 ≤ n) :
    (build_thumbnail_points n).length = n.toNat ∧
    (build_thumbnail_points n).map Prod.fst =
      (List.range n.toNat).map (fun (i : Nat) => (i : Int) + 1) ∧
    (∀ p ∈ build_thumbnail_points n,
      p.2 = (p.1 : ℚ) / ((n : ℚ) + 1) ∧ 0 < p.2 ∧ p.2 < 1) ∧
    List.Pairwise (fun p q : Int × ℚ => p.2 < q.2) (build_thumbnail_points n) := by
  have hden : (0 : ℚ) < (n : ℚ) + 1 := by
    have h1 : (1 : ℚ) ≤ (n : ℚ) := by exact_mod_cast hn
    linarith
  refine ⟨?_, ?_, ?_, ?_⟩
  · rw [build_thumbnail_points, List.length_map, List.length_range]
  · rw [build_thumbnail_points, List.map_map]
    rfl
  · intro p hp
    rw [build_thumbnail_points] at hp
    obtain ⟨i, hi, rfl⟩ := List.mem_map.mp hp
    have hi' : i < n.toNat := List.mem_range.mp hi
    have hle : (i : ℚ) + 1 ≤ (n : ℚ) := by
      have h : (i : Int) + 1 ≤ n := by omega
      exact_mod_cast h
    refine ⟨?_, ?_, ?_⟩
    · show ((i : ℚ) + 1) / ((n : ℚ) + 1) = (((i : Int) + 1 : Int) : ℚ) / ((n : ℚ) + 1)
      push_cast
      ring
    · exact div_pos (by positivity) hden
    · show ((i : ℚ) + 1) / ((n : ℚ) + 1) < 1
      rw [div_lt_one hden]
      linarith
  · rw [build_thumbnail_points, List.pairwise_map]
    refine (List.pairwise_lt_range n.toNat).imp ?_
    intro i j hij
    show ((i : ℚ) + 1) / ((n : ℚ) + 1) < ((j : ℚ) + 1) / ((n : ℚ) + 1)
    have hij' : (i : ℚ) + 1 < (j : ℚ) + 1 := by
      have h : (i : ℚ) < (j : ℚ) := by exact_mod_cast hij
      linarith
    gcongr

/-- Witness for C3 at `n = 3`. -/
theorem build_thumbnail_points_spec_witness :
    (build_thumbnail_points 3).length = (3 : Int).toNat ∧
    (build_thumbnail_points 3).map Prod.fst =
      (List.range (3 : Int).toNat).map (fun (i : Nat) => (i : Int) + 1) ∧
    (∀ p ∈ build_thumbnail_points 3,
      p.2 = (p.1 : ℚ) / ((3 : ℚ) + 1) ∧ 0 < p.2 ∧ p.2 < 1) ∧
    List.Pairwise (fun p q : Int × ℚ => p.2 < q.2) (build_thumbnail_points 3) :=
  build_thumbnail_points_spec 3 (by decide)

/-! ### C4: the scale factor -/

/-- C4: whenever configuration resolution succeeds with video conversion
requested, the percent value was within `1..99`, the computed scale factor is
`(100 - p)/100`, and it lies strictly between `0` and `1`. -/
theorem scale_factor_spec (env : Env) (args : Args) (cfg : RunConfig)
    (honly : args.thumbnails_only = false)
    (hok : resolveConfig env args = .ok cfg) :
    1 ≤ args.smaller ∧ args.smaller ≤ 99 ∧
    cfg.scale_factor = ((100 : ℚ) - (args.smaller : ℚ)) / 100 ∧
    0 < cfg.scale_factor ∧ cfg.scale_factor < 1 := by
  rw [resolveConfig] at hok
  simp only [honly, Bool.not_false] at hok
  split_ifs at hok
  case _ hrange _ =>
    simp only [Resolved.ok.injEq] at hok
    push_neg at hrange
    obtain ⟨h1, h2⟩ := hrange
    have hp1 : 1 ≤ args.smaller := by omega
    have hp2 : args.smaller ≤ 99 := by omega
    have hsf : cfg.scale_factor = ((100 : ℚ) - (args.smaller : ℚ)) / 100 := by
      rw [← hok]
    have hnum : (0 : ℚ) < (100 : ℚ) - (args.smaller : ℚ) := by
      have : (args.smaller : ℚ) ≤ 99 := by exact_mod_cast hp2
      linarith
    refine ⟨hp1, hp2, hsf, ?_, ?_⟩
    · rw [hsf]
      positivity
    · rw [hsf, div_lt_one (by norm_num : (0:ℚ) < 100)]
      have : (1 : ℚ) ≤ (args.smaller : ℚ) := by exact_mod_cast hp1
      linarith

/-- Concrete environment used by witnesses: both tools on PATH, an input
directory `/in` holding the single file `/in/a.mp4`, every subprocess failing
with exit code 1 and blank output. -/
def demoFs : Filesystem :=
  { entries := [⟨["in", "a.mp4"]⟩]
    isFile := fun p => p = ⟨["in", "a.mp4"]⟩
    isDir := fun p => p = ⟨["in"]⟩
    resolve := fun p => p }

/-- Concrete environment for witnesses (see `demoFs`). -/
def demoEnv : Env :=
  { whichFfmpeg := true
    whichFfprobe := true
    fs := demoFs
    exec := fun _ => { returncode := 1, stdout := .blank, stderr := "" } }

/-- Concrete defaulted argument record for witnesses: `--smaller 50`, no
thumbnails, dry run off. -/
def demoArgs : Args :=
  { input_dir := ⟨["in"]⟩
    output_dir := none
    smaller := 50
    recursive := false
    suffix := ""
    crf := 23
    preset := "medium"
    audio_bitrate := "128k"
    overwrite := false
    dry_run := false
    thumbnails := false
    thumbnails_only := false
    thumbnail_count := 10 }

/-- The configuration `resolveConfig` produces for `demoEnv`/`demoArgs`. -/
def demoCfg : RunConfig :=
  { do_thumbnails := false
    do_video_conversion := true
    input_dir := ⟨["in"]⟩
    output_dir := ⟨["in", "converted"]⟩
    scale_factor := ((100 : ℚ) - ((50 : Int) : ℚ)) / 100 }

lemma resolveConfig_demo : resolveConfig demoEnv demoArgs = .ok demoCfg := by
  rw [resolveConfig]
  norm_num [demoEnv, demoArgs, demoFs, demoCfg, PyPath.child]

/-- Witness for C4 on the concrete run `demoEnv`/`demoArgs`. -/
theorem scale_factor_spec_witness :
    1 ≤ demoArgs.smaller ∧ demoArgs.smaller ≤ 99 ∧
    demoCfg.scale_factor = ((100 : ℚ) - (demoArgs.smaller : ℚ)) / 100 ∧
    0 < demoCfg.scale_factor ∧ demoCfg.scale_factor < 1 :=
  scale_factor_spec demoEnv demoArgs demoCfg rfl resolveConfig_demo

/-! ### C5: file discovery -/

instance : IsTotal PyPath pathLe := ⟨fun a b => le_total a.components b.components⟩

instance : IsTrans PyPath pathLe := ⟨fun _ _ _ h1 h2 => le_trans h1 h2⟩

/-- C5: file discovery returns exactly the regular files among the globbed
entries (direct children non-recursively, all strict descendants recursively)
whose extension lowercases to `.mp4` and whose resolved path is not inside the
resolved output directory, in sorted order (lexicographic on the component
tuple, as `sorted` orders `pathlib` paths). -/
theorem find_mp4_files_spec (fs : Filesystem) (input_dir output_dir : PyPath)
    (recursive : Bool) :
    List.Sorted pathLe (find_mp4_files fs input_dir output_dir recursive) ∧
    ∀ p, p ∈ find_mp4_files fs input_dir output_dir recursive ↔
      (p ∈ fs.entries ∧
       input_dir.components.isPrefixOf p.components = true ∧
       (recursive = true → input_dir.components.length < p.components.length) ∧
       (recursive = false → p.components.length = input_dir.components.length + 1) ∧
       fs.isFile p = true ∧
       lowerStr p.suffix = ".mp4" ∧
       is_relative_to (fs.resolve p) (fs.resolve output_dir) = false) := by
  constructor
  · exact List.sorted_insertionSort pathLe _
  · intro p
    rw [find_mp4_files, List.mem_insertionSort, List.mem_filter, globEntries,
      List.mem_filter]
    cases recursive <;>
      simp [Bool.and_eq_true, decide_eq_true_eq, Bool.not_eq_true'] <;>
      tauto

/-! ### C6: the conversion command -/

/-- The scaling filter expression exactly as the specification words it:
`scale=trunc(iw*S/2)*2:trunc(ih*S/2)*2` for the rendered scale factor `S`. -/
def scaleFilterSpec (scale_factor : ℚ) : String :=
  "scale=trunc(iw*" ++ pyFloatRepr scale_factor ++ "/2)*2:trunc(ih*" ++
    pyFloatRepr scale_factor ++ "/2)*2"

/-- C6: the conversion command builder is pure and returns the argument vector
that suppresses banner and log output, carries `-y` when overwrite is set and
`-n` otherwise, applies the even-dimension scaling filter, selects `libx264`
with the given CRF and preset, selects `aac` with the given bitrate, enables
`+faststart` moov relocation, and ends with the destination path. -/
theorem ffmpeg_command_spec (source destination : PyPath) (scale_factor : ℚ)
    (crf : Int) (preset audio_bitrate : String) (overwrite : Bool) :
    ffmpeg_command source destination scale_factor crf preset audio_bitrate overwrite =
      ["ffmpeg", "-hide_banner", "-loglevel", "error",
       if overwrite then "-y" else "-n",
       "-i", source.render,
       "-vf", scaleFilterSpec scale_factor,
       "-c:v", "libx264",
       "-preset", preset,
       "-crf", intRepr crf,
       "-c:a", "aac",
       "-b:a", audio_bitrate,
       "-movflags", "+faststart",
       destination.render] ∧
    (if overwrite then "-y" else "-n") ∈
      ffmpeg_command source destination scale_factor crf preset audio_bitrate overwrite ∧
    (ffmpeg_command source destination scale_factor crf preset audio_bitrate
        overwrite).getLast? = some destination.render := by
  refine ⟨?_, ?_, ?_⟩
  · rw [ffmpeg_command, scaleFilterSpec]
    simp [String.append_assoc]
  · cases overwrite <;> simp [ffmpeg_command]
  · rw [ffmpeg_command]
    rfl

/-! ### C10: distinctness of thumbnail filenames -/

/-- Decimal value of a digit character list (inverse of `natReprAux`). -/
def parseDigits (cs : List Char) : Nat :=
  cs.foldl (fun acc c => acc * 10 + (c.toNat - 48)) 0

lemma parseDigits_append_digit (xs : List Char) (c : Char) :
    parseDigits (xs ++ [c]) = parseDigits xs * 10 + (c.toNat - 48) := by
  simp [parseDigits, List.foldl_append]

lemma digitChar_toNat (d : Nat) (hd : d < 10) : (digitChar d).toNat = 48 + d := by
  interval_cases d <;> decide

lemma natReprAux_zero (fuel : Nat) : natReprAux fuel 0 = [] := by
  cases fuel <;> simp [natReprAux]

lemma parseDigits_natReprAux :
    ∀ fuel n, n ≤ fuel → parseDigits (natReprAux fuel n) = n := by
  intro fuel
  induction fuel with
  | zero =>
    intro n hn
    interval_cases n
    simp [natReprAux, parseDigits]
  | succ fuel ih =>
    intro n hn
    by_cases h0 : n = 0
    · subst h0
      simp [natReprAux, parseDigits]
    · have hdiv : n / 10 ≤ fuel := by
        have := Nat.div_lt_self (Nat.pos_of_ne_zero h0) (by norm_num : 1 < 10)
        omega
      rw [natReprAux, if_neg h0, parseDigits_append_digit, ih (n / 10) hdiv,
        digitChar_toNat (n % 10) (Nat.mod_lt n (by norm_num))]
      omega

lemma string_data_inj {s t : String} (h : s.data = t.data) : s = t := by
  cases s
  cases t
  exact congrArg String.mk h

lemma natRepr_inj {m n : Nat} (h : natRepr m = natRepr n) : m = n := by
  have hd := congrArg String.data h
  by_cases hm : m = 0 <;> by_cases hn : n = 0
  · omega
  · rw [natRepr, if_pos hm, natRepr, if_neg hn] at hd
    have := congrArg parseDigits hd
    rw [parseDigits_natReprAux n n le_rfl] at this
    simp [parseDigits] at this
    omega
  · rw [natRepr, if_neg hm, natRepr, if_pos hn] at hd
    have := congrArg parseDigits hd
    rw [parseDigits_natReprAux m m le_rfl] at this
    simp [parseDigits] at this
    omega
  · rw [natRepr, if_neg hm, natRepr, if_neg hn] at hd
    have := congrArg parseDigits hd
    rw [parseDigits_natReprAux m m le_rfl, parseDigits_natReprAux n n le_rfl] at this
    exact this

lemma natReprAux_head :
    ∀ fuel n, 1 ≤ n → n ≤ fuel →
      ∃ d, 1 ≤ d ∧ d < 10 ∧ (natReprAux fuel n).head? = some (digitChar d) := by
  intro fuel
  induction fuel with
  | zero => intro n h1 h2; omega
  | succ fuel ih =>
    intro n h1 h2
    rw [natReprAux, if_neg (by omega)]
    by_cases hsmall : n < 10
    · have hdiv : n / 10 = 0 := Nat.div_eq_of_lt hsmall
      rw [hdiv, natReprAux_zero]
      exact ⟨n % 10, by omega, Nat.mod_lt n (by norm_num), by simp⟩
    · have hpos : 1 ≤ n / 10 := by omega
      have hdiv : n / 10 ≤ fuel := by omega
      obtain ⟨d, hd1, hd2, hd3⟩ := ih (n / 10) hpos hdiv
      refine ⟨d, hd1, hd2, ?_⟩
      rw [List.head?_append_of_ne_nil]
      · exact hd3
      · intro hnil
        rw [hnil] at hd3
        simp at hd3

lemma natReprAux_small {n : Nat} (h1 : 1 ≤ n) (h10 : n < 10) :
    ∀ fuel, n ≤ fuel → natReprAux fuel n = [digitChar n] := by
  intro fuel hf
  match fuel with
  | 0 => omega
  | fuel + 1 =>
    rw [natReprAux, if_neg (by omega), Nat.div_eq_of_lt h10, natReprAux_zero,
      Nat.mod_eq_of_lt h10]
    rfl

lemma natRepr_length_small {n : Nat} (h1 : 1 ≤ n) (h10 : n < 10) :
    (natRepr n).length = 1 := by
  rw [natRepr, if_neg (by omega), natReprAux_small h1 h10 n le_rfl]
  rfl

lemma natReprAux_length_large (fuel n : Nat) (h1 : 10 ≤ n) (h2 : n ≤ fuel) :
    2 ≤ (natReprAux fuel n).length := by
  cases fuel with
  | zero => omega
  | succ f =>
    rw [natReprAux, if_neg (by omega), List.length_append]
    have hpos : 1 ≤ n / 10 := by omega
    have hdiv : n / 10 ≤ f := by omega
    obtain ⟨d, _, _, hd3⟩ := natReprAux_head f (n / 10) hpos hdiv
    have hne : natReprAux f (n / 10) ≠ [] := by
      intro hnil
      rw [hnil] at hd3
      simp at hd3
    have hlen := List.length_pos.mpr hne
    simp only [List.length_cons, List.length_nil]
    omega

lemma natRepr_length_large {n : Nat} (h10 : 10 ≤ n) : 2 ≤ (natRepr n).length := by
  rw [natRepr, if_neg (by omega)]
  exact natReprAux_length_large n n h10 le_rfl

lemma natRepr_head_large {n : Nat} (h10 : 10 ≤ n) :
    ∃ d, 1 ≤ d ∧ d < 10 ∧ (natRepr n).data.head? = some (digitChar d) := by
  rw [natRepr, if_neg (by omega)]
  exact natReprAux_head n n (by omega) le_rfl

lemma pad2_inj_pos {i j : Int} (hi : 1 ≤ i) (hj : 1 ≤ j) (h : pad2 i = pad2 j) :
    i = j := by
  have hri : intRepr i = natRepr i.toNat := by
    rw [intRepr, if_neg (by omega)]
  have hrj : intRepr j = natRepr j.toNat := by
    rw [intRepr, if_neg (by omega)]
  have hti : 1 ≤ i.toNat := by omega
  have htj : 1 ≤ j.toNat := by omega
  suffices hs : i.toNat = j.toNat by omega
  rw [pad2, pad2, hri, hrj] at h
  by_cases hsi : i.toNat < 10 <;> by_cases hsj : j.toNat < 10
  · rw [if_pos (by rw [natRepr_length_small hti hsi]; omega),
      if_pos (by rw [natRepr_length_small htj hsj]; omega)] at h
    have hd := congrArg String.data h
    have : (natRepr i.toNat).data = (natRepr j.toNat).data := by
      simpa using hd
    exact natRepr_inj (string_data_inj this)
  · rw [if_pos (by rw [natRepr_length_small hti hsi]; omega),
      if_neg (by have := natRepr_length_large (by omega : 10 ≤ j.toNat); omega)] at h
    have hd := congrArg (fun s : String => s.data.head?) h
    obtain ⟨d, hd1, hd2, hd3⟩ := natRepr_head_large (by omega : 10 ≤ j.toNat)
    simp only [hd3] at hd
    have h0 : ('0' : Char) = digitChar d := by simpa using hd
    have := congrArg Char.toNat h0
    rw [digitChar_toNat d hd2] at this
    exfalso
    have h48 : ('0' : Char).toNat = 48 := by decide
    omega
  · rw [if_neg (by have := natRepr_length_large (by omega : 10 ≤ i.toNat); omega),
      if_pos (by rw [natRepr_length_small htj hsj]; omega)] at h
    have hd := congrArg (fun s : String => s.data.head?) h
    obtain ⟨d, hd1, hd2, hd3⟩ := natRepr_head_large (by omega : 10 ≤ i.toNat)
    simp only [hd3] at hd
    have h0 : digitChar d = ('0' : Char) := by simpa using hd
    have := congrArg Char.toNat h0
    rw [digitChar_toNat d hd2] at this
    exfalso
    have h48 : ('0' : Char).toNat = 48 := by decide
    omega
  · rw [if_neg (by have := natRepr_length_large (by omega : 10 ≤ i.toNat); omega),
      if_neg (by have := natRepr_length_large (by omega : 10 ≤ j.toNat); omega)] at h
    exact natRepr_inj h

lemma thumbFileName_inj (stem : String) {i j : Int} (hi : 1 ≤ i) (hj : 1 ≤ j)
    (h : thumbFileName stem i = thumbFileName stem j) : i = j := by
  rw [thumbFileName, thumbFileName] at h
  have hd := congrArg String.data h
  have hsplit : ∀ k : Int,
      (stem ++ "_thumb_" ++ pad2 k ++ ".jpg").data =
        (stem.data ++ "_thumb_".data) ++ ((pad2 k).data ++ ".jpg".data) := by
    intro k
    show (stem.data ++ "_thumb_".data ++ (pad2 k).data ++ ".jpg".data) = _
    simp [List.append_assoc]
  rw [hsplit i, hsplit j] at hd
  have hmid := List.append_cancel_left hd
  have hpad : (pad2 i).data = (pad2 j).data := List.append_cancel_right hmid
  exact pad2_inj_pos hi hj (string_data_inj hpad)

/-- C10: for every thumbnail count `n ≥ 1`, the generated thumbnail filenames
`<stem>_thumb_<index:02d>.jpg` of one source file are pairwise distinct
(the index is zero-padded to two digits below 10 and rendered in full width
otherwise), so no thumbnail of a file overwrites another thumbnail of the
same file. -/
theorem thumbnail_filenames_distinct (stem : String) (n : Int) (_hn : 1 ≤ n) :
    ((build_thumbnail_points n).map (fun p => thumbFileName stem p.1)).Nodup ∧
    (∀ p ∈ build_thumbnail_points n, p.1 < 10 → pad2 p.1 = "0" ++ intRepr p.1) ∧
    (∀ p ∈ build_thumbnail_points n, 10 ≤ p.1 → pad2 p.1 = intRepr p.1) := by
  have hfst : ∀ p ∈ build_thumbnail_points n, 1 ≤ p.1 := by
    intro p hp
    rw [build_thumbnail_points] at hp
    obtain ⟨i, _, rfl⟩ := List.mem_map.mp hp
    show 1 ≤ (i : Int) + 1
    omega
  refine ⟨?_, ?_, ?_⟩
  · rw [build_thumbnail_points, List.map_map]
    refine List.Nodup.map_on ?_ (List.nodup_range n.toNat)
    intro i _ j _ hf
    have : ((i : Int) + 1) = ((j : Int) + 1) :=
      thumbFileName_inj stem (by omega) (by omega) hf
    omega
  · intro p hp hlt
    have h1 := hfst p hp
    rw [pad2, if_pos]
    rw [intRepr, if_neg (by omega), natRepr_length_small (by omega) (by omega)]
    omega
  · intro p hp hge
    have h1 := hfst p hp
    rw [pad2, if_neg]
    rw [intRepr, if_neg (by omega)]
    have := natRepr_length_large (by omega : 10 ≤ p.1.toNat)
    omega

/-- Witness for C10 at `n = 3`. -/
theorem thumbnail_filenames_distinct_witness :
    ((build_thumbnail_points 3).map (fun p => thumbFileName "a" p.1)).Nodup ∧
    (∀ p ∈ build_thumbnail_points 3, p.1 < 10 → pad2 p.1 = "0" ++ intRepr p.1) ∧
    (∀ p ∈ build_thumbnail_points 3, 10 ≤ p.1 → pad2 p.1 = intRepr p.1) :=
  thumbnail_filenames_distinct "a" 3 (by decide)

/-! ### C2: the --smaller range validation -/

/-- Arguments with an out-of-range `--smaller 0` but `--thumbnails-only` set. -/
def cexThumbsOnlyArgs : Args :=
  { demoArgs with thumbnails_only := true, smaller := 0 }

/-- Counterexample to C2 as stated: with `--thumbnails-only`, a percent value
of `0` given as `--smaller` does not make the run fail; configuration
resolution succeeds and the run exits with code 1 (a per-file probe failure),
not 2, after discovering and processing a file. -/
theorem smaller_validation_cex :
    cexThumbsOnlyArgs.smaller = 0 ∧
    resolveConfig demoEnv cexThumbsOnlyArgs =
      .ok { do_thumbnails := true, do_video_conversion := false,
            input_dir := ⟨["in"]⟩, output_dir := ⟨["in", "converted"]⟩,
            scale_factor := 0 } ∧
    (main demoEnv cexThumbsOnlyArgs).exitCode = 1 := by
  refine ⟨rfl, rfl, rfl⟩

/-- C2 (amended): when video conversion is requested (not thumbnails-only) and
the earlier validations pass (encoder on PATH; prober on PATH and a positive
thumbnail count if thumbnails are requested; existing input directory), every
percent value `p ≤ 0` or `p ≥ 100` given as `--smaller` makes the run fail
with the `--smaller` range error and exit code 2, with no file discovered,
no directory created and no subprocess started. -/
theorem smaller_validation_spec (env : Env) (args : Args)
    (hconv : args.thumbnails_only = false)
    (hmpeg : env.whichFfmpeg = true)
    (hprobe : args.thumbnails = true → env.whichFfprobe = true ∧ 1 ≤ args.thumbnail_count)
    (hdir : env.fs.isDir (env.fs.resolve args.input_dir) = true)
    (hbad : args.smaller ≤ 0 ∨ 100 ≤ args.smaller) :
    resolveConfig env args = .fail .smallerOutOfRange ∧
    main env args =
      { exitCode := 2,
        events := [.err "Error: --smaller must be between 1 and 99."],
        conversion_failures := 0, thumbnail_failures := 0 } := by
  have hres : resolveConfig env args = .fail .smallerOutOfRange := by
    rw [resolveConfig]
    cases ht : args.thumbnails with
    | false =>
      simp only [hconv, ht, hmpeg, hdir, Bool.not_true, Bool.or_false, Bool.false_and,
        Bool.and_false, Bool.false_or, Bool.not_false, if_false, if_true,
        Bool.false_eq_true]
      rw [if_pos hbad]
    | true =>
      obtain ⟨hp, hc⟩ := hprobe ht
      have hcnt : decide (args.thumbnail_count < 1) = false := decide_eq_false (by omega)
      simp only [hconv, ht, hmpeg, hp, hdir, hcnt, Bool.not_true, Bool.or_false,
        Bool.true_or, Bool.true_and, Bool.and_false, Bool.not_false, if_false, if_true,
        Bool.false_eq_true]
      rw [if_pos hbad]
  refine ⟨hres, ?_⟩
  simp only [main, hres]
  rfl

/-- Witness for the amended C2: a conversion-mode run with `--smaller 0` and
all earlier validations passing. -/
theorem smaller_validation_spec_witness :
    resolveConfig demoEnv { demoArgs with smaller := 0 } = .fail .smallerOutOfRange ∧
    main demoEnv { demoArgs with smaller := 0 } =
      { exitCode := 2,
        events := [.err "Error: --smaller must be between 1 and 99."],
        conversion_failures := 0, thumbnail_failures := 0 } :=
  smaller_validation_spec demoEnv { demoArgs with smaller := 0 } rfl rfl
    (by decide) (by decide) (by decide)

/-! ### C9: --thumbnails-only skips the --smaller validation -/

lemma resolveConfig_ok_flags {env : Env} {args : Args} {cfg : RunConfig}
    (h : resolveConfig env args = .ok cfg) :
    cfg.do_thumbnails = (args.thumbnails || args.thumbnails_only) ∧
    cfg.do_video_conversion = !args.thumbnails_only ∧
    cfg.input_dir = env.fs.resolve args.input_dir := by
  simp only [resolveConfig] at h
  split_ifs at h
  all_goals
    first
    | exact Resolved.noConfusion h
    | (cases h; exact ⟨rfl, rfl, rfl⟩)

lemma resolveConfig_smaller_congr (env : Env) (args : Args) (s : Int)
    (honly : args.thumbnails_only = true) :
    resolveConfig env { args with smaller := s } = resolveConfig env args := by
  rw [resolveConfig, resolveConfig]
  simp only [honly, Bool.not_true, if_false, Bool.false_eq_true]

/-- C9: with `--thumbnails-only`, the `--smaller` range validation is skipped
entirely: the whole run outcome is independent of the `--smaller` value, the
resolved scale factor is `0`, conversion is off (so the scale factor is never
used), the `--smaller`-related errors can never arise, and when the remaining
validations pass the run proceeds without a configuration error. -/
theorem thumbnails_only_skips_smaller (env : Env) (args : Args)
    (honly : args.thumbnails_only = true) :
    (∀ s : Int, main env { args with smaller := s } = main env args) ∧
    (∀ cfg, resolveConfig env args = .ok cfg →
      cfg.scale_factor = 0 ∧ cfg.do_video_conversion = false) ∧
    (resolveConfig env args ≠ .fail .smallerOutOfRange ∧
     resolveConfig env args ≠ .fail .nonPositiveScale) ∧
    (env.whichFfmpeg = true → env.whichFfprobe = true → 1 ≤ args.thumbnail_count →
      env.fs.isDir (env.fs.resolve args.input_dir) = true →
      (∃ cfg, resolveConfig env args = .ok cfg) ∧ (main env args).exitCode ≠ 2) := by
  have hok_char : ∀ cfg, resolveConfig env args = .ok cfg →
      cfg.scale_factor = 0 ∧ cfg.do_video_conversion = false := by
    intro cfg h
    have hflags := resolveConfig_ok_flags h
    refine ⟨?_, by rw [hflags.2.1, honly]; rfl⟩
    simp only [resolveConfig, honly, Bool.not_true, if_false, Bool.false_eq_true] at h
    split_ifs at h
    all_goals
      first
      | exact Resolved.noConfusion h
      | (cases h; rfl)
  have hnofail : resolveConfig env args ≠ .fail .smallerOutOfRange ∧
      resolveConfig env args ≠ .fail .nonPositiveScale := by
    simp only [resolveConfig, honly, Bool.not_true, if_false, Bool.false_eq_true]
    split_ifs <;> simp
  refine ⟨?_, hok_char, hnofail, ?_⟩
  · intro s
    have hres := resolveConfig_smaller_congr env args s honly
    rw [main, main, hres]
    cases hr : resolveConfig env args with
    | fail e => rfl
    | ok cfg =>
      have hdvc : cfg.do_video_conversion = false := (hok_char cfg hr).2
      have hban : ∀ total, foundBanner { args with smaller := s } cfg total =
          foundBanner args cfg total := by
        intro total
        simp [foundBanner, hdvc]
      have hpf : processFile env { args with smaller := s } =
          processFile env args := by
        funext cfg2 total idx src
        rfl
      simp only [hban, hpf]
  · intro hmpeg hp hcnt hdir
    have hok : ∃ cfg, resolveConfig env args = .ok cfg := by
      rw [resolveConfig]
      have hcnt' : decide (args.thumbnail_count < 1) = false := decide_eq_false (by omega)
      simp [honly, hmpeg, hp, hdir, hcnt']
    obtain ⟨cfg, hcfg⟩ := hok
    refine ⟨⟨cfg, hcfg⟩, ?_⟩
    rw [main, hcfg]
    by_cases hs : (find_mp4_files env.fs cfg.input_dir cfg.output_dir args.recursive).isEmpty
    · simp only [hs, if_true]
      decide
    · simp only [hs, if_false, Bool.false_eq_true]
      split_ifs <;> decide

/-- Witness for C9 on a concrete thumbnails-only run. -/
theorem thumbnails_only_skips_smaller_witness :
    (∀ s : Int, main demoEnv { cexThumbsOnlyArgs with smaller := s } =
      main demoEnv cexThumbsOnlyArgs) ∧
    (∀ cfg, resolveConfig demoEnv cexThumbsOnlyArgs = .ok cfg →
      cfg.scale_factor = 0 ∧ cfg.do_video_conversion = false) ∧
    (resolveConfig demoEnv cexThumbsOnlyArgs ≠ .fail .smallerOutOfRange ∧
     resolveConfig demoEnv cexThumbsOnlyArgs ≠ .fail .nonPositiveScale) ∧
    (demoEnv.whichFfmpeg = true → demoEnv.whichFfprobe = true →
      1 ≤ cexThumbsOnlyArgs.thumbnail_count →
      demoEnv.fs.isDir (demoEnv.fs.resolve cexThumbsOnlyArgs.input_dir) = true →
      (∃ cfg, resolveConfig demoEnv cexThumbsOnlyArgs = .ok cfg) ∧
      (main demoEnv cexThumbsOnlyArgs).exitCode ≠ 2) :=
  thumbnails_only_skips_smaller demoEnv cexThumbsOnlyArgs rfl

/-! ### C7: exit codes and absence of partial output on configuration errors -/

/-- C7: the process exit code is `2` exactly on configuration errors, which
print only stderr messages (no subprocess, no directory creation, no file
processing); with a valid configuration the run exits `0` when no file was
found (doing nothing else) and otherwise exits `1` precisely when at least
one conversion or thumbnail operation failed, `0` when none did. -/
theorem exit_code_spec (env : Env) (args : Args) :
    (∀ e, resolveConfig env args = .fail e →
      (main env args).exitCode = 2 ∧
      (∀ ev ∈ (main env args).events, ∃ s, ev = Event.err s)) ∧
    (∀ cfg, resolveConfig env args = .ok cfg →
      ((find_mp4_files env.fs cfg.input_dir cfg.output_dir args.recursive).isEmpty = true →
        main env args =
          { exitCode := 0, events := [.out "No MP4 files found."],
            conversion_failures := 0, thumbnail_failures := 0 }) ∧
      ((main env args).exitCode =
        if (main env args).conversion_failures + (main env args).thumbnail_failures ≠ 0
        then 1 else 0)) := by
  constructor
  · intro e he
    rw [main, he]
    refine ⟨rfl, ?_⟩
    intro ev hev
    cases e <;>
      simp only [configErrorEvents, List.mem_cons, List.not_mem_nil, or_false] at hev <;>
      (rcases hev with rfl | rfl <;> exact ⟨_, rfl⟩)
  · intro cfg hc
    simp only [main, hc]
    refine ⟨?_, ?_⟩
    · intro h
      simp only [h, if_true]
    · split_ifs <;> first | rfl | simp_all

/-- Witness for C7 at a configuration error (encoder missing from PATH) and at
a valid empty run. -/
theorem exit_code_spec_witness :
    (main { demoEnv with whichFfmpeg := false } demoArgs).exitCode = 2 ∧
    (∀ ev ∈ (main { demoEnv with whichFfmpeg := false } demoArgs).events,
      ∃ s, ev = Event.err s) :=
  (exit_code_spec { demoEnv with whichFfmpeg := false } demoArgs).1
    ConfigError.ffmpegMissing rfl

/-! ### C8: non-positive probed durations -/

/-- C8: when the probe yields a duration `d ≤ 0`, the thumbnail block behaves
exactly as for a failed probe: the probe subprocess ran, the failure notice is
printed, the thumbnail failure counter is incremented by exactly 1, and no
thumbnail command is built or executed; the rest of the per-file work (the
header and the conversion block) is unaffected, so processing continues. -/
theorem nonpositive_duration_spec (env : Env) (args : Args) (cfg : RunConfig)
    (rel_parent : List String) (total index : Nat) (source : PyPath) (d : ℚ)
    (hthumbs : cfg.do_thumbnails = true)
    (hd : (ffprobe_duration_seconds env source).2 = some d)
    (hle : d ≤ 0) :
    processThumbnails env args cfg rel_parent source =
      ([Event.run (ffprobe_cmd source),
        Event.err "  thumbnail failed (could not read duration)"], 1) ∧
    processFile env args cfg total index source =
      ([Event.out ("[" ++ natRepr index ++ "/" ++ natRepr total ++ "] " ++ source.name)] ++
         (if cfg.do_video_conversion then
           processConversion env args cfg (relParent cfg source) source
          else ([], 0)).1 ++
         [Event.run (ffprobe_cmd source),
          Event.err "  thumbnail failed (could not read duration)"],
       (if cfg.do_video_conversion then
          processConversion env args cfg (relParent cfg source) source
        else ([], 0)).2, 1) := by
  have h1 : ∀ rel, processThumbnails env args cfg rel source =
      ([Event.run (ffprobe_cmd source),
        Event.err "  thumbnail failed (could not read duration)"], 1) := by
    intro rel
    simp only [processThumbnails, hd]
    rw [if_pos hle]
    simp [ffprobe_duration_seconds]
  refine ⟨h1 rel_parent, ?_⟩
  simp only [processFile, hthumbs, if_true, h1]
  rfl

/-- Environment whose probe reports a duration of exactly `0` seconds. -/
def zeroDurationEnv : Env :=
  { demoEnv with exec := fun _ => { returncode := 0, stdout := .floatVal 0, stderr := "" } }

/-- Thumbnails-only configuration over `/in` used by the C8 witness. -/
def thumbsCfg : RunConfig :=
  { do_thumbnails := true
    do_video_conversion := false
    input_dir := ⟨["in"]⟩
    output_dir := ⟨["in", "converted"]⟩
    scale_factor := 0 }

/-- Witness for C8: a probe reporting duration `0` on a concrete run. -/
theorem nonpositive_duration_spec_witness :
    processThumbnails zeroDurationEnv cexThumbsOnlyArgs thumbsCfg [] ⟨["in", "a.mp4"]⟩ =
      ([Event.run (ffprobe_cmd ⟨["in", "a.mp4"]⟩),
        Event.err "  thumbnail failed (could not read duration)"], 1) ∧
    processFile zeroDurationEnv cexThumbsOnlyArgs thumbsCfg 1 1 ⟨["in", "a.mp4"]⟩ =
      ([Event.out ("[" ++ natRepr 1 ++ "/" ++ natRepr 1 ++ "] " ++
          (PyPath.mk ["in", "a.mp4"]).name)] ++
         (if thumbsCfg.do_video_conversion then
           processConversion zeroDurationEnv cexThumbsOnlyArgs thumbsCfg
             (relParent thumbsCfg ⟨["in", "a.mp4"]⟩) ⟨["in", "a.mp4"]⟩
          else ([], 0)).1 ++
         [Event.run (ffprobe_cmd ⟨["in", "a.mp4"]⟩),
          Event.err "  thumbnail failed (could not read duration)"],
       (if thumbsCfg.do_video_conversion then
          processConversion zeroDurationEnv cexThumbsOnlyArgs thumbsCfg
            (relParent thumbsCfg ⟨["in", "a.mp4"]⟩) ⟨["in", "a.mp4"]⟩
        else ([], 0)).2, 1) :=
  nonpositive_duration_spec zeroDurationEnv cexThumbsOnlyArgs thumbsCfg [] 1 1
    ⟨["in", "a.mp4"]⟩ 0 rfl rfl (le_refl 0)

/-! ### C1: dry-run behaviour -/

lemma cmdPrints_append (a b : List Event) :
    cmdPrints (a ++ b) = cmdPrints a ++ cmdPrints b :=
  List.filterMap_append a b _

lemma runArgvs_append (a b : List Event) :
    runArgvs (a ++ b) = runArgvs a ++ runArgvs b :=
  List.filterMap_append a b _

lemma ffmpegRunArgvs_append (a b : List Event) :
    ffmpegRunArgvs (a ++ b) = ffmpegRunArgvs a ++ ffmpegRunArgvs b :=
  List.filterMap_append a b _

lemma cmdPrints_flatten (L : List (List Event)) :
    cmdPrints L.flatten = (L.map cmdPrints).flatten :=
  List.filterMap_flatten _ L

lemma runArgvs_flatten (L : List (List Event)) :
    runArgvs L.flatten = (L.map runArgvs).flatten :=
  List.filterMap_flatten _ L

lemma ffmpegRunArgvs_flatten (L : List (List Event)) :
    ffmpegRunArgvs L.flatten = (L.map ffmpegRunArgvs).flatten :=
  List.filterMap_flatten _ L

lemma flatten_map_singleton {α β : Type _} (f : α → β) (l : List α) :
    (l.map (fun a => [f a])).flatten = l.map f := by
  induction l with
  | nil => rfl
  | cons x xs ih => simp [ih]

lemma isCmdPrint_ffmpeg_command (s d : PyPath) (sf : ℚ) (c : Int) (p ab : String)
    (o : Bool) : isCmdPrint ("  " ++ joinSp (ffmpeg_command s d sf c p ab o)) = true := by
  cases o <;> rfl

lemma isCmdPrint_thumbnail_command (s d : PyPath) (t : ℚ) (o : Bool) :
    isCmdPrint ("  " ++ joinSp (thumbnail_command s d t o)) = true := by
  cases o <;> rfl

/-- Observations of the conversion block in dry-run mode: it prints exactly
the text of the conversion command and starts no subprocess. -/
lemma processConversion_dry_obs (env : Env) (args : Args) (cfg : RunConfig)
    (rel : List String) (source : PyPath) (hdry : args.dry_run = true) :
    cmdPrints (processConversion env args cfg rel source).1 =
      ["  " ++ joinSp (ffmpeg_command source
        ((cfg.output_dir.joinRel rel).child (source.stem ++ args.suffix ++ source.suffix))
        cfg.scale_factor args.crf args.preset args.audio_bitrate args.overwrite)] ∧
    runArgvs (processConversion env args cfg rel source).1 = [] := by
  simp only [processConversion, hdry, if_true]
  exact ⟨by cases args.overwrite <;> rfl, by cases args.overwrite <;> rfl⟩

/-- Observations of one thumbnail point in dry-run mode. -/
lemma processThumbPoint_dry_obs (env : Env) (args : Args) (source tp : PyPath)
    (dur : ℚ) (pt : Int × ℚ) (hdry : args.dry_run = true) :
    cmdPrints (processThumbPoint env args source tp dur pt).1 =
      ["  " ++ joinSp (thumbnail_command source
        (tp.child (thumbFileName source.stem pt.1)) (dur * pt.2) args.overwrite)] ∧
    runArgvs (processThumbPoint env args source tp dur pt).1 = [] := by
  simp only [processThumbPoint, hdry, if_true]
  exact ⟨by cases args.overwrite <;> rfl, by cases args.overwrite <;> rfl⟩

/-- Observations of the thumbnail block in dry-run mode: it prints exactly the
texts of the planned thumbnail commands and starts only the probe. -/
lemma processThumbnails_dry_obs (env : Env) (args : Args) (cfg : RunConfig)
    (rel : List String) (source : PyPath) (hdry : args.dry_run = true) :
    cmdPrints (processThumbnails env args cfg rel source).1 =
      ((match (ffprobe_duration_seconds env source).2 with
        | none => []
        | some duration =>
          if duration ≤ 0 then []
          else
            (build_thumbnail_points args.thumbnail_count).map (fun point =>
              thumbnail_command source
                (((cfg.output_dir.child "thumbnails").joinRel rel).child
                  (thumbFileName source.stem point.1))
                (duration * point.2) args.overwrite)) :
        List (List String)).map (fun c => "  " ++ joinSp c) ∧
    runArgvs (processThumbnails env args cfg rel source).1 = [ffprobe_cmd source] := by
  rcases hp : (ffprobe_duration_seconds env source).2 with _ | d
  · simp only [processThumbnails, hp]
    exact ⟨rfl, rfl⟩
  · by_cases hle : d ≤ 0
    · simp only [processThumbnails, hp, if_pos hle]
      exact ⟨rfl, rfl⟩
    · simp only [processThumbnails, hp, if_neg hle]
      have hev1 : (ffprobe_duration_seconds env source).1 =
          [Event.run (ffprobe_cmd source)] := rfl
      constructor
      · rw [hev1, cmdPrints_append, cmdPrints_append, cmdPrints_flatten, List.map_map,
          List.map_map]
        have hmap : List.map ((cmdPrints ∘ Prod.fst) ∘
            processThumbPoint env args source
              ((cfg.output_dir.child "thumbnails").joinRel rel) d)
            (build_thumbnail_points args.thumbnail_count) =
            List.map (fun pt : Int × ℚ =>
              ["  " ++ joinSp (thumbnail_command source
                (((cfg.output_dir.child "thumbnails").joinRel rel).child
                  (thumbFileName source.stem pt.1)) (d * pt.2) args.overwrite)])
            (build_thumbnail_points args.thumbnail_count) :=
          List.map_congr_left (fun pt _ =>
            (processThumbPoint_dry_obs env args source
              ((cfg.output_dir.child "thumbnails").joinRel rel) d pt hdry).1)
        rw [hmap, flatten_map_singleton, List.map_map]
        rfl
      · rw [hev1, runArgvs_append, runArgvs_append, runArgvs_flatten, List.map_map,
          List.map_map]
        have hmap : List.map ((runArgvs ∘ Prod.fst) ∘
            processThumbPoint env args source
              ((cfg.output_dir.child "thumbnails").joinRel rel) d)
            (build_thumbnail_points args.thumbnail_count) =
            List.map (fun _ : Int × ℚ => ([] : List (List String)))
            (build_thumbnail_points args.thumbnail_count) :=
          List.map_congr_left (fun pt _ =>
            (processThumbPoint_dry_obs env args source
              ((cfg.output_dir.child "thumbnails").joinRel rel) d pt hdry).2)
        rw [hmap]
        simp [runArgvs]

lemma cmdPrints_failureNoise (label : String) (r : ProcResult) :
    cmdPrints (failureNoise label r) = [] := by
  rw [failureNoise]
  split_ifs <;> rfl

lemma runArgvs_failureNoise (label : String) (r : ProcResult) :
    runArgvs (failureNoise label r) = [] := by
  rw [failureNoise]
  split_ifs <;> rfl

lemma ffmpegRunArgvs_failureNoise (label : String) (r : ProcResult) :
    ffmpegRunArgvs (failureNoise label r) = [] := by
  rw [failureNoise]
  split_ifs <;> rfl

/-- Without dry-run, the conversion block executes exactly the conversion
command (whether or not it fails). -/
lemma processConversion_wet_obs (env : Env) (args : Args) (cfg : RunConfig)
    (rel : List String) (source : PyPath) (hwet : args.dry_run = false) :
    ffmpegRunArgvs (processConversion env args cfg rel source).1 =
      [ffmpeg_command source
        ((cfg.output_dir.joinRel rel).child (source.stem ++ args.suffix ++ source.suffix))
        cfg.scale_factor args.crf args.preset args.audio_bitrate args.overwrite] := by
  simp only [processConversion, hwet, Bool.false_eq_true, if_false]
  split_ifs with hrc
  · rw [ffmpegRunArgvs_append, ffmpegRunArgvs_append, ffmpegRunArgvs_failureNoise,
      List.append_nil]
    cases args.overwrite <;> rfl
  · rw [ffmpegRunArgvs_append]
    cases args.overwrite <;> rfl

/-- Without dry-run, one thumbnail point executes exactly its thumbnail
command (whether or not it fails). -/
lemma processThumbPoint_wet_obs (env : Env) (args : Args) (source tp : PyPath)
    (dur : ℚ) (pt : Int × ℚ) (hwet : args.dry_run = false) :
    ffmpegRunArgvs (processThumbPoint env args source tp dur pt).1 =
      [thumbnail_command source (tp.child (thumbFileName source.stem pt.1))
        (dur * pt.2) args.overwrite] := by
  simp only [processThumbPoint, hwet, Bool.false_eq_true, if_false]
  split_ifs with hrc
  · rw [ffmpegRunArgvs_append, ffmpegRunArgvs_append, ffmpegRunArgvs_failureNoise,
      List.append_nil]
    cases args.overwrite <;> rfl
  · rw [ffmpegRunArgvs_append]
    cases args.overwrite <;> rfl

/-- Without dry-run, the thumbnail block executes exactly the planned
thumbnail commands (none when the duration is unavailable or non-positive). -/
lemma processThumbnails_wet_obs (env : Env) (args : Args) (cfg : RunConfig)
    (rel : List String) (source : PyPath) (hwet : args.dry_run = false) :
    ffmpegRunArgvs (processThumbnails env args cfg rel source).1 =
      ((match (ffprobe_duration_seconds env source).2 with
        | none => []
        | some duration =>
          if duration ≤ 0 then []
          else
            (build_thumbnail_points args.thumbnail_count).map (fun point =>
              thumbnail_command source
                (((cfg.output_dir.child "thumbnails").joinRel rel).child
                  (thumbFileName source.stem point.1))
                (duration * point.2) args.overwrite)) :
        List (List String)) := by
  rcases hp : (ffprobe_duration_seconds env source).2 with _ | d
  · simp only [processThumbnails, hp]
    rfl
  · by_cases hle : d ≤ 0
    · simp only [processThumbnails, hp, if_pos hle]
      rfl
    · simp only [processThumbnails, hp, if_neg hle]
      have hev1 : (ffprobe_duration_seconds env source).1 =
          [Event.run (ffprobe_cmd source)] := rfl
      rw [hev1, ffmpegRunArgvs_append, ffmpegRunArgvs_append, ffmpegRunArgvs_flatten,
        List.map_map, List.map_map]
      have hmap : List.map ((ffmpegRunArgvs ∘ Prod.fst) ∘
          processThumbPoint env args source
            ((cfg.output_dir.child "thumbnails").joinRel rel) d)
          (build_thumbnail_points args.thumbnail_count) =
          List.map (fun pt : Int × ℚ =>
            [thumbnail_command source
              (((cfg.output_dir.child "thumbnails").joinRel rel).child
                (thumbFileName source.stem pt.1)) (d * pt.2) args.overwrite])
          (build_thumbnail_points args.thumbnail_count) :=
        List.map_congr_left (fun pt _ =>
          processThumbPoint_wet_obs env args source
            ((cfg.output_dir.child "thumbnails").joinRel rel) d pt hwet)
      rw [hmap, flatten_map_singleton]
      rfl

/-- In dry-run mode, one file prints exactly the texts of its planned commands
(in order) and starts only the probe subprocess (when thumbnails are on). -/
lemma processFile_dry_obs (env : Env) (args : Args) (cfg : RunConfig)
    (total idx : Nat) (source : PyPath) (hdry : args.dry_run = true) :
    cmdPrints (processFile env args cfg total idx source).1 =
      (plannedFileCommands env args cfg (relParent cfg source) source).map
        (fun c => "  " ++ joinSp c) ∧
    runArgvs (processFile env args cfg total idx source).1 =
      (if cfg.do_thumbnails then [ffprobe_cmd source] else []) := by
  have hrel : relParent cfg source =
      (List.drop cfg.input_dir.components.length source.components).dropLast := rfl
  rw [processFile, plannedFileCommands, hrel]
  constructor
  · rw [cmdPrints_append, cmdPrints_append, List.map_append]
    have h0 : cmdPrints [Event.out ("[" ++ natRepr idx ++ "/" ++ natRepr total ++ "] " ++
        source.name)] = [] := rfl
    rw [h0, List.nil_append]
    cases hdvc : cfg.do_video_conversion <;> cases hdt : cfg.do_thumbnails <;>
      simp only [if_true, if_false, Bool.false_eq_true]
    all_goals
      first
      | rfl
      | exact (processThumbnails_dry_obs env args cfg _ source hdry).1
      | (rw [(processConversion_dry_obs env args cfg _ source hdry).1,
          (processThumbnails_dry_obs env args cfg _ source hdry).1]
         try rfl)
      | (rw [(processConversion_dry_obs env args cfg _ source hdry).1]
         rfl)
  · rw [runArgvs_append, runArgvs_append]
    have h0 : runArgvs [Event.out ("[" ++ natRepr idx ++ "/" ++ natRepr total ++ "] " ++
        source.name)] = [] := rfl
    rw [h0, List.nil_append]
    cases hdvc : cfg.do_video_conversion <;> cases hdt : cfg.do_thumbnails <;>
      simp only [if_true, if_false, Bool.false_eq_true]
    all_goals
      first
      | rfl
      | exact (processThumbnails_dry_obs env args cfg _ source hdry).2
      | (rw [(processConversion_dry_obs env args cfg _ source hdry).2,
          (processThumbnails_dry_obs env args cfg _ source hdry).2]
         try rfl)
      | (rw [(processConversion_dry_obs env args cfg _ source hdry).2]
         rfl)

/-- Without dry-run, one file executes exactly its planned encoder commands. -/
lemma processFile_wet_obs (env : Env) (args : Args) (cfg : RunConfig)
    (total idx : Nat) (source : PyPath) (hwet : args.dry_run = false) :
    ffmpegRunArgvs (processFile env args cfg total idx source).1 =
      plannedFileCommands env args cfg (relParent cfg source) source := by
  have hrel : relParent cfg source =
      (List.drop cfg.input_dir.components.length source.components).dropLast := rfl
  rw [processFile, plannedFileCommands, hrel]
  rw [ffmpegRunArgvs_append, ffmpegRunArgvs_append]
  have h0 : ffmpegRunArgvs [Event.out ("[" ++ natRepr idx ++ "/" ++ natRepr total ++ "] " ++
      source.name)] = [] := rfl
  rw [h0, List.nil_append]
  cases hdvc : cfg.do_video_conversion <;> cases hdt : cfg.do_thumbnails <;>
    simp only [if_true, if_false, Bool.false_eq_true]
  all_goals
    first
    | rfl
    | exact processThumbnails_wet_obs env args cfg _ source hwet
    | (rw [processConversion_wet_obs env args cfg _ source hwet,
        processThumbnails_wet_obs env args cfg _ source hwet]
       try rfl)
    | (rw [processConversion_wet_obs env args cfg _ source hwet]
       rfl)

lemma runArgvs_configErrorEvents (e : ConfigError) :
    runArgvs (configErrorEvents e) = [] := by
  cases e <;> rfl

lemma cmdPrints_configErrorEvents (e : ConfigError) :
    cmdPrints (configErrorEvents e) = [] := by
  cases e <;> rfl

lemma ffmpegRunArgvs_configErrorEvents (e : ConfigError) :
    ffmpegRunArgvs (configErrorEvents e) = [] := by
  cases e <;> rfl

/-- In dry-run mode the whole run prints exactly the planned command texts and
starts exactly one probe per file with thumbnails on (and nothing else). -/
lemma main_obs_dry (env : Env) (args : Args) (cfg : RunConfig)
    (hdry : args.dry_run = true) (hok : resolveConfig env args = .ok cfg) :
    cmdPrints (main env args).events =
      (plannedCommands env args cfg
        (find_mp4_files env.fs cfg.input_dir cfg.output_dir args.recursive)).map
        (fun c => "  " ++ joinSp c) ∧
    runArgvs (main env args).events =
      ((find_mp4_files env.fs cfg.input_dir cfg.output_dir args.recursive).map
        (fun s => if cfg.do_thumbnails then [ffprobe_cmd s] else [])).flatten := by
  simp only [main, hok, plannedCommands]
  by_cases hempty :
      (find_mp4_files env.fs cfg.input_dir cfg.output_dir args.recursive).isEmpty
  · have hnil : find_mp4_files env.fs cfg.input_dir cfg.output_dir args.recursive = [] :=
      List.isEmpty_iff.mp hempty
    rw [hnil]
    simp only [List.isEmpty_nil, if_true, List.map_nil, List.flatten_nil]
    exact ⟨rfl, rfl⟩
  · rw [Bool.not_eq_true] at hempty
    simp only [hempty, Bool.false_eq_true, if_false]
    constructor
    · rw [cmdPrints_append, cmdPrints_append, cmdPrints_flatten, List.map_map,
        List.map_map]
      have hpro : cmdPrints ([Event.mkdirp cfg.output_dir] ++
          (if cfg.do_thumbnails then
            [Event.mkdirp (cfg.output_dir.child "thumbnails")] else []) ++
          [Event.out (foundBanner args cfg
            (find_mp4_files env.fs cfg.input_dir cfg.output_dir args.recursive).length)]) =
          [] := by
        cases cfg.do_thumbnails <;> rfl
      rw [hpro, List.nil_append]
      have hmap : List.map ((cmdPrints ∘ Prod.fst) ∘ fun iv : Nat × PyPath =>
          processFile env args cfg
            (find_mp4_files env.fs cfg.input_dir cfg.output_dir args.recursive).length
            iv.1 iv.2)
          (List.enumFrom 1 (find_mp4_files env.fs cfg.input_dir cfg.output_dir args.recursive)) =
          List.map ((fun s => (plannedFileCommands env args cfg (relParent cfg s) s).map
              (fun c => "  " ++ joinSp c)) ∘ Prod.snd)
          (List.enumFrom 1 (find_mp4_files env.fs cfg.input_dir cfg.output_dir args.recursive)) :=
        List.map_congr_left (fun iv _ =>
          (processFile_dry_obs env args cfg
            (find_mp4_files env.fs cfg.input_dir cfg.output_dir args.recursive).length
            iv.1 iv.2 hdry).1)
      rw [hmap, ← List.map_map, List.enumFrom_map_snd, List.map_flatten, List.map_map]
      have hepi : ∀ a b : Nat, cmdPrints [Event.out ("Completed. Conversion failures: " ++
          natRepr a ++ ", Thumbnail failures: " ++ natRepr b)] = [] := fun _ _ => rfl
      rw [hepi, List.append_nil, List.map_map]
      rfl
    · rw [runArgvs_append, runArgvs_append, runArgvs_flatten, List.map_map, List.map_map]
      have hpro : runArgvs ([Event.mkdirp cfg.output_dir] ++
          (if cfg.do_thumbnails then
            [Event.mkdirp (cfg.output_dir.child "thumbnails")] else []) ++
          [Event.out (foundBanner args cfg
            (find_mp4_files env.fs cfg.input_dir cfg.output_dir args.recursive).length)]) =
          [] := by
        cases cfg.do_thumbnails <;> rfl
      rw [hpro, List.nil_append]
      have hmap : List.map ((runArgvs ∘ Prod.fst) ∘ fun iv : Nat × PyPath =>
          processFile env args cfg
            (find_mp4_files env.fs cfg.input_dir cfg.output_dir args.recursive).length
            iv.1 iv.2)
          (List.enumFrom 1 (find_mp4_files env.fs cfg.input_dir cfg.output_dir args.recursive)) =
          List.map ((fun s => if cfg.do_thumbnails then [ffprobe_cmd s] else []) ∘ Prod.snd)
          (List.enumFrom 1 (find_mp4_files env.fs cfg.input_dir cfg.output_dir args.recursive)) :=
        List.map_congr_left (fun iv _ =>
          (processFile_dry_obs env args cfg
            (find_mp4_files env.fs cfg.input_dir cfg.output_dir args.recursive).length
            iv.1 iv.2 hdry).2)
      rw [hmap, ← List.map_map, List.enumFrom_map_snd]
      have hepi : ∀ a b : Nat, runArgvs [Event.out ("Completed. Conversion failures: " ++
          natRepr a ++ ", Thumbnail failures: " ++ natRepr b)] = [] := fun _ _ => rfl
      rw [hepi, List.append_nil]

/-- Without dry-run the whole run executes exactly the planned encoder
commands, in order. -/
lemma main_obs_wet (env : Env) (args : Args) (cfg : RunConfig)
    (hwet : args.dry_run = false) (hok : resolveConfig env args = .ok cfg) :
    ffmpegRunArgvs (main env args).events =
      plannedCommands env args cfg
        (find_mp4_files env.fs cfg.input_dir cfg.output_dir args.recursive) := by
  simp only [main, hok, plannedCommands]
  by_cases hempty :
      (find_mp4_files env.fs cfg.input_dir cfg.output_dir args.recursive).isEmpty
  · have hnil : find_mp4_files env.fs cfg.input_dir cfg.output_dir args.recursive = [] :=
      List.isEmpty_iff.mp hempty
    rw [hnil]
    simp only [List.isEmpty_nil, if_true, List.map_nil, List.flatten_nil]
    rfl
  · rw [Bool.not_eq_true] at hempty
    simp only [hempty, Bool.false_eq_true, if_false]
    rw [ffmpegRunArgvs_append, ffmpegRunArgvs_append, ffmpegRunArgvs_flatten,
      List.map_map, List.map_map]
    have hpro : ffmpegRunArgvs ([Event.mkdirp cfg.output_dir] ++
        (if cfg.do_thumbnails then
          [Event.mkdirp (cfg.output_dir.child "thumbnails")] else []) ++
        [Event.out (foundBanner args cfg
          (find_mp4_files env.fs cfg.input_dir cfg.output_dir args.recursive).length)]) =
        [] := by
      cases cfg.do_thumbnails <;> rfl
    rw [hpro, List.nil_append]
    have hmap : List.map ((ffmpegRunArgvs ∘ Prod.fst) ∘ fun iv : Nat × PyPath =>
        processFile env args cfg
          (find_mp4_files env.fs cfg.input_dir cfg.output_dir args.recursive).length
          iv.1 iv.2)
        (List.enumFrom 1 (find_mp4_files env.fs cfg.input_dir cfg.output_dir args.recursive)) =
        List.map ((fun s => plannedFileCommands env args cfg (relParent cfg s) s) ∘ Prod.snd)
        (List.enumFrom 1 (find_mp4_files env.fs cfg.input_dir cfg.output_dir args.recursive)) :=
      List.map_congr_left (fun iv _ =>
        processFile_wet_obs env args cfg
          (find_mp4_files env.fs cfg.input_dir cfg.output_dir args.recursive).length
          iv.1 iv.2 hwet)
    rw [hmap, ← List.map_map, List.enumFrom_map_snd]
    have hepi : ∀ a b : Nat, ffmpegRunArgvs [Event.out ("Completed. Conversion failures: " ++
        natRepr a ++ ", Thumbnail failures: " ++ natRepr b)] = [] := fun _ _ => rfl
    rw [hepi, List.append_nil]

/-- Arguments for the C1 counterexample and witness: a thumbnails-only dry
run. -/
def dryThumbArgs : Args :=
  { demoArgs with thumbnails_only := true, dry_run := true }

/-- Counterexample to C1 as stated: in a dry run with thumbnails requested,
the prober subprocess is still started (`subprocess.run` of the `ffprobe`
argument vector appears in the trace), so "no subprocess is started for the
encoder or the prober" is false. -/
theorem dry_run_cex :
    dryThumbArgs.dry_run = true ∧
    Event.run (ffprobe_cmd ⟨["in", "a.mp4"]⟩) ∈ (main demoEnv dryThumbArgs).events :=
  ⟨rfl, by decide⟩

/-- C1 (amended): in dry-run mode no encoder subprocess is ever started (every
subprocess in the trace is the prober, which still runs when thumbnails are
requested), and the printed command texts are exactly (in order) the texts of
the argument vectors that the same run without dry-run executes. -/
theorem dry_run_spec (env : Env) (args : Args) (hdry : args.dry_run = true) :
    (∀ argv, Event.run argv ∈ (main env args).events → argv.head? = some "ffprobe") ∧
    (∀ cfg, resolveConfig env args = .ok cfg →
      cmdPrints (main env args).events =
        (plannedCommands env args cfg
          (find_mp4_files env.fs cfg.input_dir cfg.output_dir args.recursive)).map
          (fun c => "  " ++ joinSp c) ∧
      ffmpegRunArgvs (main env { args with dry_run := false }).events =
        plannedCommands env args cfg
          (find_mp4_files env.fs cfg.input_dir cfg.output_dir args.recursive)) := by
  constructor
  · intro argv hmem
    have hmem' : argv ∈ runArgvs (main env args).events := by
      rw [runArgvs, List.mem_filterMap]
      exact ⟨Event.run argv, hmem, rfl⟩
    rcases hr : resolveConfig env args with e | cfg
    · have hev : (main env args).events = configErrorEvents e := by
        simp only [main, hr]
      rw [hev, runArgvs_configErrorEvents] at hmem'
      simp at hmem'
    · rw [(main_obs_dry env args cfg hdry hr).2, List.mem_flatten] at hmem'
      obtain ⟨l, hl, hal⟩ := hmem'
      rw [List.mem_map] at hl
      obtain ⟨s, _, rfl⟩ := hl
      cases hdt : cfg.do_thumbnails with
      | false =>
        rw [hdt] at hal
        simp at hal
      | true =>
        rw [hdt] at hal
        simp only [if_true, List.mem_singleton] at hal
        subst hal
        rfl
  · intro cfg hok
    refine ⟨(main_obs_dry env args cfg hdry hok).1, ?_⟩
    have hres : resolveConfig env { args with dry_run := false } = Resolved.ok cfg :=
      (rfl : resolveConfig env { args with dry_run := false } =
        resolveConfig env args).trans hok
    exact main_obs_wet env { args with dry_run := false } cfg rfl hres

/-- Witness for the amended C1 on a concrete thumbnails-only dry run. -/
theorem dry_run_spec_witness :
    (∀ argv, Event.run argv ∈ (main demoEnv dryThumbArgs).events →
      argv.head? = some "ffprobe") ∧
    (∀ cfg, resolveConfig demoEnv dryThumbArgs = .ok cfg →
      cmdPrints (main demoEnv dryThumbArgs).events =
        (plannedCommands demoEnv dryThumbArgs cfg
          (find_mp4_files demoEnv.fs cfg.input_dir cfg.output_dir
            dryThumbArgs.recursive)).map (fun c => "  " ++ joinSp c) ∧
      ffmpegRunArgvs (main demoEnv { dryThumbArgs with dry_run := false }).events =
        plannedCommands demoEnv dryThumbArgs cfg
          (find_mp4_files demoEnv.fs cfg.input_dir cfg.output_dir
            dryThumbArgs.recursive)) :=
  dry_run_spec demoEnv dryThumbArgs rfl

end VideoConvert
